import Mathlib

/-!
Shallow embedding of the ethash-pow consensus plugin
(nodes/ethash-pow/src: pow.rs, service.rs, rpc/ethash_rpc.rs).

Machine integers are modelled as Nat with explicit bounds: a u256 value is
a Nat below 2^256, a u64 value a Nat below 2^64.  H256 hashes are modelled
by their numeric value (a Nat below 2^256); the conversions between H256,
EH256, U256 and EU256 performed in the source are value preserving and
therefore identities in this embedding.  Fallible operations return Except.

The external ethash crate (the HashingOracle capability: compute_light,
the seed-hash schedule and the difficulty/boundary conversions) is passed
in as total function parameters, matching its treatment as a pure,
deterministic, side-effect-free collaborator.
-/

/-- Minimum difficulty floor, set in EthashAlgorithm::new (pow.rs). -/
def minimumDifficulty : Nat := 1000000

/-- Difficulty bound divisor, set in EthashAlgorithm::new (pow.rs). -/
def difficultyBoundDivisor : Nat := 2048

/-- Duration limit in seconds, set in EthashAlgorithm::new (pow.rs). -/
def durationLimit : Nat := 13

/-- Little-endian byte encoding of a Nat into exactly k bytes
(the SCALE fixed-width integer encoding used by parity-scale-codec). -/
def toLEBytes : Nat → Nat → List Nat
  | 0, _ => []
  | k + 1, n => (n % 256) :: toLEBytes k (n / 256)

/-- Little-endian reading of a byte list back into a Nat. -/
def fromLEBytes : List Nat → Nat
  | [] => 0
  | b :: bs => b + 256 * fromLEBytes bs

/-- Reading k bytes from the front of a buffer, failing when the buffer is
too short (the SCALE input read step). -/
def readBytes (k : Nat) (l : List Nat) : Option (List Nat × List Nat) :=
  if l.length < k then none else some (l.take k, l.drop k)

/-- Modelled from the spec: the WorkSeal struct of crate::types (the file
types.rs is absent from the sources; its callers in pow.rs and service.rs
are present).  Spec data model: WorkSeal = { nonce: u256, pow_hash:
hash256, mix_digest: hash256, header_nr: u64, difficulty: u256,
timestamp: u64 }. -/
structure WorkSeal where
  nonce : Nat
  pow_hash : Nat
  mix_digest : Nat
  header_nr : Nat
  difficulty : Nat
  timestamp : Nat
deriving DecidableEq, Repr

/-- A WorkSeal whose fields are within the ranges of their machine types. -/
def WorkSeal.Wellformed (s : WorkSeal) : Prop :=
  s.nonce < 2 ^ 256 ∧ s.pow_hash < 2 ^ 256 ∧ s.mix_digest < 2 ^ 256 ∧
  s.header_nr < 2 ^ 64 ∧ s.difficulty < 2 ^ 256 ∧ s.timestamp < 2 ^ 64

instance (s : WorkSeal) : Decidable s.Wellformed := by
  unfold WorkSeal.Wellformed; infer_instance

/-- Modelled from the spec: the derived SCALE encoding of WorkSeal
(parity-scale-codec Encode): the fixed-width little-endian bytes of each
field, concatenated in declaration order. -/
def WorkSeal.encode (s : WorkSeal) : List Nat :=
  toLEBytes 32 s.nonce ++ toLEBytes 32 s.pow_hash ++ toLEBytes 32 s.mix_digest ++
  toLEBytes 8 s.header_nr ++ toLEBytes 32 s.difficulty ++ toLEBytes 8 s.timestamp

/-- Modelled from the spec: the derived SCALE decoding of WorkSeal
(parity-scale-codec Decode): read each fixed-width field in declaration
order; a too-short input is a decode failure.  Trailing bytes are allowed,
as with Decode::decode on a byte slice. -/
def WorkSeal.decode (l : List Nat) : Except Unit WorkSeal :=
  match readBytes 32 l with
  | none => .error ()
  | some (b1, l) =>
    match readBytes 32 l with
    | none => .error ()
    | some (b2, l) =>
      match readBytes 32 l with
      | none => .error ()
      | some (b3, l) =>
        match readBytes 8 l with
        | none => .error ()
        | some (b4, l) =>
          match readBytes 32 l with
          | none => .error ()
          | some (b5, l) =>
            match readBytes 8 l with
            | none => .error ()
            | some (b6, _) =>
              .ok ⟨fromLEBytes b1, fromLEBytes b2, fromLEBytes b3,
                   fromLEBytes b4, fromLEBytes b5, fromLEBytes b6⟩

/-- Modelled from the spec: the error taxonomy of crate::rpc::error
(rpc/error.rs is absent from the sources; §7 of the spec lists NoWork,
NoMetaData, MismatchedSealElement among the variants, and pow.rs and
service.rs name these constructors). -/
inductive EthError where
  | NoWork
  | NoMetaData
  | MismatchedH256SealElement
  | InvalidProofOfWork
deriving DecidableEq, Repr

/-- Result of ethash compute_light: a mix hash and a raw value. -/
structure ComputeResult where
  mixHash : Nat
  value : Nat
deriving DecidableEq, Repr

/-- The HashingOracle capability: compute_light(block_number, header_hash,
nonce) from the external ethash crate, treated as a pure total function. -/
def Oracle : Type := Nat → Nat → Nat → ComputeResult

namespace MinimalEthashAlgorithm

/-- MinimalEthashAlgorithm::verify_seal (pow.rs lines 31-64): recompute the
mix digest with compute_light on (header_nr, pow_hash, nonce) and compare
it with the seal's claimed mix_digest.  The derived-difficulty binding of
the source (boundary_to_difficulty on the raw value) is dead code there:
its only consumer is commented out. -/
def verify_seal (pow : Oracle) (s : WorkSeal) : Except EthError Unit :=
  let result := pow s.header_nr s.pow_hash s.nonce
  if result.mixHash ≠ s.mix_digest then
    .error .MismatchedH256SealElement
  else
    .ok ()

/-- MinimalEthashAlgorithm::difficulty (pow.rs lines 71-74): fixed. -/
def difficulty (_parent : Nat) : Except String Nat :=
  .ok 1000000

/-- MinimalEthashAlgorithm::calc_difficulty (pow.rs lines 76-79): fixed. -/
def calc_difficulty (_parent : Nat) : Except String Nat :=
  .ok 1000000

/-- MinimalEthashAlgorithm::verify (pow.rs lines 81-101): decode the raw
seal (failure gives Ok(false)), then verify_seal (failure gives
Ok(false)), then Ok(true).  The pre_hash and difficulty arguments are
accepted but unused by the body. -/
def verify (pow : Oracle) (_pre_hash : Nat) (rawSeal : List Nat)
    (_difficulty : Nat) : Except String Bool :=
  match WorkSeal.decode rawSeal with
  | .error _ => .ok false
  | .ok s =>
    match verify_seal pow s with
    | .error _ => .ok false
    | .ok _ => .ok true

end MinimalEthashAlgorithm

/-- Chain-backend header view used by EthashAlgorithm: the block number and
the result of sc_consensus_pow::fetch_seal on the header's last digest log
(none models a fetch_seal error: no log or a non-seal log). -/
structure Header where
  number : Nat
  sealBytes : Option (List Nat)

/-- The chain-backend capability client.header(BlockId::hash(h)): an outer
error models Err from the backend, the inner Option a missing header. -/
def Client : Type := Nat → Except Unit (Option Header)

namespace EthashAlgorithm

/-- EthashAlgorithm::verify_seal (pow.rs lines 130-163): identical in
structure to the minimal variant; recompute the mix digest with
compute_light on (header_nr, pow_hash, nonce) and compare it with the
seal's claimed mix_digest.  The derived-difficulty binding of the source
is dead code: the comparison consuming it is commented out. -/
def verify_seal (pow : Oracle) (s : WorkSeal) : Except EthError Unit :=
  let result := pow s.header_nr s.pow_hash s.nonce
  if result.mixHash ≠ s.mix_digest then
    .error .MismatchedH256SealElement
  else
    .ok ()

/-- EthashAlgorithm::difficulty (pow.rs lines 181-217): fetch the header
(backend error or missing header give Err), fetch the seal bytes (on a
fetch error, block number 0 gives the minimum floor, otherwise Err),
decode them (failure gives Err), and return the decoded seal's recorded
difficulty field unchanged. -/
def difficulty (client : Client) (hash : Nat) : Except String Nat :=
  match client hash with
  | .error _ => .error "client error"
  | .ok none => .error "there should be header"
  | .ok (some header) =>
    match header.sealBytes with
    | none =>
      if header.number = 0 then .ok minimumDifficulty
      else .error "fetch_seal error"
    | some bytes =>
      match WorkSeal.decode bytes with
      | .error _ => .error "decode error"
      | .ok s => .ok s.difficulty

/-- The retarget arithmetic of EthashAlgorithm::calc_difficulty (pow.rs
lines 254-267) after the parent seal has been decoded: subtract
difficulty/2048 when now has reached timestamp + 13, add it otherwise,
then clamp below by the minimum difficulty.  The U256 addition of the
source panics on overflow past 2^256 (the uint crate Add), modelled as an
error; the U256 subtraction cannot underflow since d/2048 ≤ d. -/
def calcDifficultyFromSeal (s : WorkSeal) (now : Nat) : Except String Nat :=
  if s.timestamp + durationLimit ≤ now then
    .ok (max minimumDifficulty
      (s.difficulty - s.difficulty / difficultyBoundDivisor))
  else if s.difficulty + s.difficulty / difficultyBoundDivisor < 2 ^ 256 then
    .ok (max minimumDifficulty
      (s.difficulty + s.difficulty / difficultyBoundDivisor))
  else
    .error "arithmetic operation overflow"

/-- EthashAlgorithm::calc_difficulty (pow.rs lines 219-268): fetch the
parent header (a missing header is the genesis case and gives the minimum
floor; a backend error gives Err), fetch the seal bytes (on a fetch
error, block number 0 gives the minimum floor, otherwise Err), decode
them (failure gives Err), then apply the retarget arithmetic.  The
source reads now from the system clock; here it is passed explicitly. -/
def calc_difficulty (client : Client) (now : Nat) (parent : Nat) :
    Except String Nat :=
  match client parent with
  | .error _ => .error "client error"
  | .ok none => .ok minimumDifficulty
  | .ok (some header) =>
    match header.sealBytes with
    | none =>
      if header.number = 0 then .ok minimumDifficulty
      else .error "fetch_seal error"
    | some bytes =>
      match WorkSeal.decode bytes with
      | .error _ => .error "decode error"
      | .ok s => calcDifficultyFromSeal s now

/-- EthashAlgorithm::verify (pow.rs lines 270-290): decode the raw seal
(failure gives Ok(false)), then verify_seal (failure gives Ok(false)),
then Ok(true).  The pre_hash and difficulty arguments are accepted but
unused by the body. -/
def verify (pow : Oracle) (_pre_hash : Nat) (rawSeal : List Nat)
    (_difficulty : Nat) : Except String Bool :=
  match WorkSeal.decode rawSeal with
  | .error _ => .ok false
  | .ok s =>
    match verify_seal pow s with
    | .error _ => .ok false
    | .ok _ => .ok true

end EthashAlgorithm

/-- Modelled from the spec: MiningMetadata (owned by the external
sc_consensus_pow MiningWorker): the number, pre-hash and difficulty of
the block currently being assembled. -/
structure MiningMetadata where
  number : Nat
  pre_hash : Nat
  difficulty : Nat
deriving DecidableEq, Repr

/-- Modelled from the spec: the Work mining-job snapshot of crate::types
(types.rs is absent from the sources; the construction site in service.rs
is present): { pow_hash, seed_hash, target, number }. -/
structure Work where
  pow_hash : Nat
  seed_hash : Nat
  target : Nat
  number : Option Nat
deriving DecidableEq, Repr

/-- The WorkSeal literal built by the SubmitWork arm of run_mining_svc
(service.rs line 356): exactly the four fields nonce, pow_hash,
mix_digest and header_nr are supplied there, from the submitted values
plus the metadata's block number. -/
structure WorkSealSubmit where
  nonce : Nat
  pow_hash : Nat
  mix_digest : Nat
  header_nr : Nat
deriving DecidableEq, Repr

/-- SCALE encoding of the submitted seal handed to MiningWorker.submit:
fixed-width little-endian bytes of the four fields in order. -/
def WorkSealSubmit.encode (s : WorkSealSubmit) : List Nat :=
  toLEBytes 32 s.nonce ++ toLEBytes 32 s.pow_hash ++ toLEBytes 32 s.mix_digest ++
  toLEBytes 8 s.header_nr

/-- State of the external MiningWorker as seen through the coordinator:
the current metadata snapshot and the list of encoded seals handed to
MiningWorker.submit (the submit return value is discarded by the
coordinator, as in the source). -/
structure MiningWorkerState where
  metadata : Option MiningMetadata
  submitted : List (List Nat)
deriving DecidableEq, Repr

/-- EtheminerCmd (rpc/ethash_rpc.rs lines 31-49, with the payload fields
the SubmitWork arm of service.rs line 351 destructures): GetWork,
SubmitWork{nonce, pow_hash, mix_digest} and SubmitHashrate{hash}, each
carrying a single-use reply channel (modelled outside the command). -/
inductive EtheminerCmd where
  | GetWork
  | SubmitWork (nonce pow_hash mix_digest : Nat)
  | SubmitHashrate (hash : Nat)
deriving DecidableEq, Repr

instance {ε α : Type} [DecidableEq ε] [DecidableEq α] :
    DecidableEq (Except ε α) := fun x y => by
  cases x <;> cases y
  case error.error a b =>
    exact if h : a = b then .isTrue (by rw [h])
      else .isFalse (by intro hh; injection hh; contradiction)
  case error.ok a b => exact .isFalse (by intro hh; injection hh)
  case ok.error a b => exact .isFalse (by intro hh; injection hh)
  case ok.ok a b =>
    exact if h : a = b then .isTrue (by rw [h])
      else .isFalse (by intro hh; injection hh; contradiction)

/-- A value signalled on a command's reply channel: GetWork replies carry
Result<Work, Error>, SubmitWork and SubmitHashrate replies carry
Result<bool, Error>. -/
inductive Reply where
  | work (r : Except EthError Work)
  | flag (r : Except EthError Bool)
deriving DecidableEq, Repr

/-- send_result (rpc/ethash_rpc.rs lines 122-137): take the single-use
sender out of the Option and send on it once; a consumed or absent sender
only logs.  Returns the drained sender state and the signals emitted. -/
def send_result (sender : Option Unit) (r : Reply) : Option Unit × List Reply :=
  match sender with
  | some _ => (none, [r])
  | none => (none, [])

/-- One iteration of the run_mining_svc command loop (service.rs lines
326-369) on a single dequeued command: the GetWork arm snapshots the
metadata and replies Ok(Work) or Err(NoWork); the SubmitWork arm builds
the seal literal from the submitted fields plus the metadata's block
number, hands its encoding to MiningWorker.submit and replies Ok(true),
or replies Err(NoMetaData) without metadata; the SubmitHashrate arm is an
empty block.  Each arm starts from the command's fresh sender (Some);
the returned list is every signal emitted on that command's channel.
hash_block_number models seed_compute.hash_block_number and
difficulty_to_boundary the ethash conversion, both external pure
capabilities. -/
def processCommand (hash_block_number : Nat → Nat)
    (difficulty_to_boundary : Nat → Nat) (worker : MiningWorkerState) :
    EtheminerCmd → MiningWorkerState × List Reply
  | .GetWork =>
    match worker.metadata with
    | some metadata =>
      let nr := metadata.number
      let pow_hash := metadata.pre_hash
      let seed_hash := hash_block_number nr
      let target := difficulty_to_boundary metadata.difficulty
      (worker,
       (send_result (some ()) (.work (.ok ⟨pow_hash, seed_hash, target, some nr⟩))).2)
    | none =>
      (worker, (send_result (some ()) (.work (.error .NoWork))).2)
  | .SubmitWork nonce pow_hash mix_digest =>
    match worker.metadata with
    | some metadata =>
      let header_nr := metadata.number
      let sl : WorkSealSubmit := ⟨nonce, pow_hash, mix_digest, header_nr⟩
      ({ worker with submitted := worker.submitted ++ [sl.encode] },
       (send_result (some ()) (.flag (.ok true))).2)
    | none =>
      (worker, (send_result (some ()) (.flag (.error .NoMetaData))).2)
  | .SubmitHashrate _ =>
    (worker, [])

/-- A concrete well-formed seal used as a test vector. -/
def exampleSeal : WorkSeal :=
  ⟨9, 7, 5, 3, 2000000, 100⟩

/-- An oracle whose recomputed mix digest matches exampleSeal's claim and
whose raw value is the largest u256. -/
def oracleMatching : Oracle := fun _ _ _ => ⟨5, 2 ^ 256 - 1⟩

/-- An oracle identical to oracleMatching except for the mix digest, which
does not match exampleSeal's claim. -/
def oracleMismatching : Oracle := fun _ _ _ => ⟨6, 2 ^ 256 - 1⟩

/-- A chain backend whose every header carries exampleSeal's encoding. -/
def exampleClient : Client := fun _ => .ok (some ⟨5, some exampleSeal.encode⟩)

/-- A decodable seal whose recorded difficulty field is zero. -/
def zeroSeal : WorkSeal :=
  ⟨1, 2, 3, 4, 0, 50⟩

/-- A chain backend whose every header carries zeroSeal's encoding. -/
def zeroDiffClient : Client := fun _ => .ok (some ⟨7, some zeroSeal.encode⟩)

set_option maxRecDepth 20000

theorem toLEBytes_length (k n : Nat) : (toLEBytes k n).length = k := by
  induction k generalizing n with
  | zero => rfl
  | succ k ih => simp [toLEBytes, ih]

theorem readBytes_append (k : Nat) (l rest : List Nat) (h : l.length = k) :
    readBytes k (l ++ rest) = some (l, rest) := by
  subst h
  unfold readBytes
  rw [if_neg (by rw [List.length_append]; omega)]
  rw [List.take_left, List.drop_left]

theorem readBytes_exact (k : Nat) (l : List Nat) (h : l.length = k) :
    readBytes k l = some (l, []) := by
  subst h
  unfold readBytes
  rw [if_neg (by omega)]
  simp

theorem fromLEBytes_toLEBytes (k n : Nat) (h : n < 256 ^ k) :
    fromLEBytes (toLEBytes k n) = n := by
  induction k generalizing n with
  | zero =>
    simp only [pow_zero, Nat.lt_one_iff] at h
    simp [toLEBytes, fromLEBytes, h]
  | succ k ih =>
    simp only [toLEBytes, fromLEBytes]
    rw [ih (n / 256) ((Nat.div_lt_iff_lt_mul (by norm_num)).2
      (by rw [pow_succ] at h; exact h))]
    omega

/-- Characterization of EthashAlgorithm::verify: it is total, and the
boolean it returns is determined by decoding and the oracle mix-digest
comparison alone. -/
theorem EthashAlgorithm.verify_characterization (pow : Oracle) (pre : Nat)
    (raw : List Nat) (d : Nat) :
    EthashAlgorithm.verify pow pre raw d =
      .ok (match WorkSeal.decode raw with
           | .ok s =>
             if (pow s.header_nr s.pow_hash s.nonce).mixHash = s.mix_digest
             then true else false
           | .error _ => false) := by
  simp only [EthashAlgorithm.verify, EthashAlgorithm.verify_seal]
  cases WorkSeal.decode raw with
  | error e => rfl
  | ok s =>
    by_cases h : (pow s.header_nr s.pow_hash s.nonce).mixHash = s.mix_digest <;>
      simp [h]

/-- Reduction of EthashAlgorithm::calc_difficulty to the retarget
arithmetic once the parent header and its decoded seal are fixed. -/
theorem EthashAlgorithm.calc_difficulty_reduces (client : Client)
    (now parent : Nat) (hd : Header) (bytes : List Nat) (s : WorkSeal)
    (hc : client parent = .ok (some hd)) (hs : hd.sealBytes = some bytes)
    (hdec : WorkSeal.decode bytes = .ok s) :
    EthashAlgorithm.calc_difficulty client now parent =
      EthashAlgorithm.calcDifficultyFromSeal s now := by
  simp [EthashAlgorithm.calc_difficulty, hc, hs, hdec]

/-- A successful result of the retarget arithmetic is at least the
minimum difficulty. -/
theorem EthashAlgorithm.calcDifficultyFromSeal_ge (s : WorkSeal)
    (now r : Nat) (h : EthashAlgorithm.calcDifficultyFromSeal s now = .ok r) :
    minimumDifficulty ≤ r := by
  unfold EthashAlgorithm.calcDifficultyFromSeal at h
  split at h
  · simp only [Except.ok.injEq] at h
    rw [← h]
    exact le_max_left _ _
  · split at h
    · simp only [Except.ok.injEq] at h
      rw [← h]
      exact le_max_left _ _
    · exact absurd h (by simp)

/-- The retarget arithmetic is antitone in the elapsed time. -/
theorem EthashAlgorithm.calcDifficultyFromSeal_antitone (s : WorkSeal)
    (now1 now2 t1 t2 : Nat)
    (h12 : now1 - s.timestamp ≤ now2 - s.timestamp)
    (h1 : EthashAlgorithm.calcDifficultyFromSeal s now1 = .ok t1)
    (h2 : EthashAlgorithm.calcDifficultyFromSeal s now2 = .ok t2) :
    t2 ≤ t1 := by
  unfold EthashAlgorithm.calcDifficultyFromSeal at h1 h2
  by_cases hb1 : s.timestamp + durationLimit ≤ now1
  · have hb2 : s.timestamp + durationLimit ≤ now2 := by
      simp only [durationLimit] at hb1 ⊢
      omega
    rw [if_pos hb1] at h1
    rw [if_pos hb2] at h2
    simp only [Except.ok.injEq] at h1 h2
    rw [← h1, ← h2]
  · rw [if_neg hb1] at h1
    by_cases hb2 : s.timestamp + durationLimit ≤ now2
    · rw [if_pos hb2] at h2
      simp only [Except.ok.injEq] at h2
      by_cases hov :
          s.difficulty + s.difficulty / difficultyBoundDivisor < 2 ^ 256
      · rw [if_pos hov] at h1
        simp only [Except.ok.injEq] at h1
        rw [← h1, ← h2]
        exact max_le_max (le_refl minimumDifficulty)
          (le_trans (Nat.sub_le _ _) (Nat.le_add_right _ _))
      · rw [if_neg hov] at h1
        exact absurd h1 (by simp)
    · rw [if_neg hb2] at h2
      by_cases hov :
          s.difficulty + s.difficulty / difficultyBoundDivisor < 2 ^ 256
      · rw [if_pos hov] at h1
        rw [if_pos hov] at h2
        simp only [Except.ok.injEq] at h1 h2
        rw [← h1, ← h2]
      · rw [if_neg hov] at h1
        exact absurd h1 (by simp)

/-- C1: the claim that PowVerifier's verify first runs a cheap
hash_meets_difficulty boundary test and, when work times difficulty
overflows 2^256, returns false without invoking the HashingOracle, is
false on the code: here the seal's work value times the required
difficulty overflows 2^256, yet verify invokes the oracle (its result
depends on the oracle's mix digest) and returns true when the mix digest
matches. -/
theorem verify_quick_check_counterexample :
    2 ^ 256 ≤
      (oracleMatching exampleSeal.header_nr exampleSeal.pow_hash
        exampleSeal.nonce).value * 2 ∧
    EthashAlgorithm.verify oracleMatching 7 exampleSeal.encode 2 =
      .ok true ∧
    EthashAlgorithm.verify oracleMismatching 7 exampleSeal.encode 2 =
      .ok false := by
  refine ⟨by decide, by decide, by decide⟩

/-- C1 (amended): EthashAlgorithm::verify performs no quick boundary test
and never consults the required difficulty: for every raw seal that
decodes, it invokes the HashingOracle unconditionally and returns true
exactly when the oracle's recomputed mix digest equals the seal's claimed
mix_digest. -/
theorem EthashAlgorithm.verify_no_quick_check (pow : Oracle) (pre : Nat)
    (raw : List Nat) (d : Nat) (s : WorkSeal)
    (hdec : WorkSeal.decode raw = .ok s) :
    EthashAlgorithm.verify pow pre raw d =
      .ok (if (pow s.header_nr s.pow_hash s.nonce).mixHash = s.mix_digest
           then true else false) := by
  rw [EthashAlgorithm.verify_characterization, hdec]

/-- C1 (amended) witness at a concrete decodable seal and oracle. -/
theorem EthashAlgorithm.verify_no_quick_check_witness :
    EthashAlgorithm.verify oracleMatching 7 exampleSeal.encode 2 =
      .ok (if (oracleMatching exampleSeal.header_nr exampleSeal.pow_hash
                exampleSeal.nonce).mixHash = exampleSeal.mix_digest
           then true else false) :=
  EthashAlgorithm.verify_no_quick_check oracleMatching 7 exampleSeal.encode 2
    exampleSeal (by decide)

/-- C2: EthashAlgorithm::verify never returns an Err: a raw seal that
fails to decode gives Ok(false), a decoded seal whose oracle-recomputed
mix digest differs from its claimed mix_digest gives Ok(false), and
otherwise it gives Ok(true) - every verification failure collapses to the
boolean false. -/
theorem EthashAlgorithm.verify_total_boolean (pow : Oracle) (pre : Nat)
    (raw : List Nat) (d : Nat) :
    EthashAlgorithm.verify pow pre raw d =
      .ok (match WorkSeal.decode raw with
           | .ok s =>
             if (pow s.header_nr s.pow_hash s.nonce).mixHash = s.mix_digest
             then true else false
           | .error _ => false) :=
  EthashAlgorithm.verify_characterization pow pre raw d

/-- C3: for a non-genesis parent whose seal decodes,
EthashAlgorithm::calc_difficulty returns difficulty minus difficulty/2048
when the elapsed time now - timestamp is at least 13 seconds (so the
13-second boundary itself takes the loosen branch) and difficulty plus
difficulty/2048 otherwise (when that u256 addition does not overflow),
each clamped below by the minimum difficulty. -/
theorem EthashAlgorithm.calc_difficulty_retarget (client : Client)
    (now parent : Nat) (hd : Header) (bytes : List Nat) (s : WorkSeal)
    (hc : client parent = .ok (some hd)) (hs : hd.sealBytes = some bytes)
    (hdec : WorkSeal.decode bytes = .ok s) :
    (durationLimit ≤ now - s.timestamp →
      EthashAlgorithm.calc_difficulty client now parent =
        .ok (max minimumDifficulty
          (s.difficulty - s.difficulty / difficultyBoundDivisor))) ∧
    (now - s.timestamp < durationLimit →
      s.difficulty + s.difficulty / difficultyBoundDivisor < 2 ^ 256 →
      EthashAlgorithm.calc_difficulty client now parent =
        .ok (max minimumDifficulty
          (s.difficulty + s.difficulty / difficultyBoundDivisor))) := by
  rw [EthashAlgorithm.calc_difficulty_reduces client now parent hd bytes s
    hc hs hdec]
  unfold EthashAlgorithm.calcDifficultyFromSeal
  constructor
  · intro h13
    have hb : s.timestamp + durationLimit ≤ now := by
      simp only [durationLimit] at h13 ⊢
      omega
    rw [if_pos hb]
  · intro h13 hov
    have hb : ¬ s.timestamp + durationLimit ≤ now := by
      simp only [durationLimit] at h13 ⊢
      omega
    rw [if_neg hb, if_pos hov]

/-- C3 witness: a parent whose elapsed time is exactly 13 seconds takes
the loosen branch. -/
theorem EthashAlgorithm.calc_difficulty_retarget_witness :
    durationLimit ≤ 113 - 100 ∧
    EthashAlgorithm.calc_difficulty exampleClient 113 0 =
      .ok (max minimumDifficulty
        (exampleSeal.difficulty -
          exampleSeal.difficulty / difficultyBoundDivisor)) :=
  ⟨by decide,
   (EthashAlgorithm.calc_difficulty_retarget exampleClient 113 0
     ⟨5, some exampleSeal.encode⟩ exampleSeal.encode exampleSeal rfl rfl
     (by decide)).1 (by decide)⟩

/-- C4: the claim that every difficulty value returned successfully by
the DifficultyEngine is at least the 1,000,000 floor, and that a missing
header makes both operations return the floor, is false on the code:
EthashAlgorithm::difficulty returns the parent seal's recorded
difficulty unclamped - here 0 - and returns an error, not the floor, on a
missing header. -/
theorem difficulty_floor_counterexample :
    EthashAlgorithm.difficulty zeroDiffClient 0 = .ok 0 ∧
    (0 : Nat) < minimumDifficulty ∧
    EthashAlgorithm.difficulty (fun _ => .ok none) 0 =
      .error "there should be header" := by
  refine ⟨by decide, by decide, rfl⟩

/-- C4 (amended): calc_difficulty clamps with max(minimum_difficulty,
target), so its successful results are always at least 1,000,000, and it
returns the floor directly for a missing parent header and for a
sealless header at block number 0; difficulty, by contrast, returns the
decoded parent seal's recorded difficulty unclamped, returns the floor
directly only for a sealless header at block number 0, and errors on a
missing header. -/
theorem EthashAlgorithm.difficulty_floor_amended (client : Client)
    (now parent r : Nat) :
    (EthashAlgorithm.calc_difficulty client now parent = .ok r →
      minimumDifficulty ≤ r) ∧
    (client parent = .ok none →
      EthashAlgorithm.calc_difficulty client now parent =
        .ok minimumDifficulty) ∧
    (∀ hd : Header, client parent = .ok (some hd) → hd.sealBytes = none →
      hd.number = 0 →
      EthashAlgorithm.calc_difficulty client now parent =
        .ok minimumDifficulty ∧
      EthashAlgorithm.difficulty client parent = .ok minimumDifficulty) ∧
    (∀ (hd : Header) (bytes : List Nat) (s : WorkSeal),
      client parent = .ok (some hd) → hd.sealBytes = some bytes →
      WorkSeal.decode bytes = .ok s →
      EthashAlgorithm.difficulty client parent = .ok s.difficulty) := by
  refine ⟨?_, ?_, ?_, ?_⟩
  · intro hok
    unfold EthashAlgorithm.calc_difficulty at hok
    cases hcp : client parent with
    | error e => simp [hcp] at hok
    | ok oh =>
      cases oh with
      | none =>
        simp only [hcp, Except.ok.injEq] at hok
        omega
      | some hd =>
        cases hsb : hd.sealBytes with
        | none =>
          simp only [hcp, hsb] at hok
          by_cases hnr : hd.number = 0
          · simp only [hnr, if_true, Except.ok.injEq] at hok
            omega
          · simp [hnr] at hok
        | some bytes =>
          simp only [hcp, hsb] at hok
          cases hdec : WorkSeal.decode bytes with
          | error e => simp [hdec] at hok
          | ok s =>
            simp only [hdec] at hok
            exact EthashAlgorithm.calcDifficultyFromSeal_ge s now r hok
  · intro hc
    unfold EthashAlgorithm.calc_difficulty
    simp [hc]
  · intro hd hc hsb hnr
    constructor
    · unfold EthashAlgorithm.calc_difficulty
      simp [hc, hsb, hnr]
    · unfold EthashAlgorithm.difficulty
      simp [hc, hsb, hnr]
  · intro hd bytes s hc hsb hdec
    unfold EthashAlgorithm.difficulty
    simp [hc, hsb, hdec]

/-- C4 (amended) witness: a concrete successful calc_difficulty result
meets the floor, and difficulty returns the concrete seal's recorded
zero difficulty unclamped. -/
theorem EthashAlgorithm.difficulty_floor_amended_witness :
    minimumDifficulty ≤ 1000000 ∧
    EthashAlgorithm.difficulty zeroDiffClient 0 = .ok zeroSeal.difficulty :=
  ⟨(EthashAlgorithm.difficulty_floor_amended zeroDiffClient 55 0 1000000).1
     (by decide),
   (EthashAlgorithm.difficulty_floor_amended zeroDiffClient 55 0 0).2.2.2
     ⟨7, some zeroSeal.encode⟩ zeroSeal.encode zeroSeal rfl rfl (by decide)⟩

/-- C5: the required-difficulty argument has no influence on verify for
either algorithm: with every oracle, pre-hash and raw seal fixed, any two
difficulty arguments give the same result. -/
theorem verify_ignores_required_difficulty (pow : Oracle) (pre : Nat)
    (raw : List Nat) (d1 d2 : Nat) :
    MinimalEthashAlgorithm.verify pow pre raw d1 =
      MinimalEthashAlgorithm.verify pow pre raw d2 ∧
    EthashAlgorithm.verify pow pre raw d1 =
      EthashAlgorithm.verify pow pre raw d2 :=
  ⟨rfl, rfl⟩

/-- C6: the GetWork arm of the coordinator replies Err(NoWork) when the
MiningWorker has no metadata, and otherwise replies Ok(Work) whose
pow_hash is the metadata's pre-hash value, whose seed_hash is the
seed-schedule hash of the block number, whose target is the
difficulty-to-boundary conversion of the metadata's difficulty, and whose
number is Some of the block number; the worker state is unchanged. -/
theorem processCommand_getWork (hash_block_number : Nat → Nat)
    (difficulty_to_boundary : Nat → Nat) (worker : MiningWorkerState) :
    processCommand hash_block_number difficulty_to_boundary worker
        .GetWork =
      (worker,
       [match worker.metadata with
        | some m =>
          Reply.work (.ok ⟨m.pre_hash, hash_block_number m.number,
            difficulty_to_boundary m.difficulty, some m.number⟩)
        | none => Reply.work (.error .NoWork)]) := by
  cases hm : worker.metadata <;> simp [processCommand, send_result, hm]

/-- C7: the SubmitWork arm of the coordinator replies Err(NoMetaData)
when the MiningWorker has no metadata, and otherwise builds the seal from
the submitted nonce, pow_hash and mix_digest plus the metadata's block
number, hands its encoding to MiningWorker.submit, and replies
Ok(true). -/
theorem processCommand_submitWork (hash_block_number : Nat → Nat)
    (difficulty_to_boundary : Nat → Nat) (worker : MiningWorkerState)
    (nonce pow_hash mix_digest : Nat) :
    processCommand hash_block_number difficulty_to_boundary worker
        (.SubmitWork nonce pow_hash mix_digest) =
      (match worker.metadata with
       | some m =>
         ({ worker with
            submitted := worker.submitted ++
              [WorkSealSubmit.encode ⟨nonce, pow_hash, mix_digest, m.number⟩] },
          [Reply.flag (.ok true)])
       | none => (worker, [Reply.flag (.error .NoMetaData)])) := by
  cases hm : worker.metadata <;> simp [processCommand, send_result, hm]

/-- C8: the claim that every processed command's reply channel is
signaled exactly once is false on the code: the SubmitHashrate arm of the
coordinator loop is an empty block, so a processed SubmitHashrate command
emits zero signals, not one. -/
theorem submitHashrate_reply_counterexample :
    (processCommand (fun n => n) (fun n => n) ⟨none, []⟩
        (.SubmitHashrate 0)).2.length = 0 ∧
    (processCommand (fun n => n) (fun n => n) ⟨none, []⟩
        (.SubmitHashrate 0)).2.length ≠ 1 := by
  refine ⟨rfl, by decide⟩

/-- C8 (amended): a processed GetWork or SubmitWork command's reply
channel is signaled exactly once and a processed SubmitHashrate command's
reply channel is never signaled; in particular no command's channel is
ever signaled more than once. -/
theorem processCommand_signal_count (hash_block_number : Nat → Nat)
    (difficulty_to_boundary : Nat → Nat) (worker : MiningWorkerState)
    (cmd : EtheminerCmd) :
    (processCommand hash_block_number difficulty_to_boundary worker
        cmd).2.length =
      (match cmd with
       | .SubmitHashrate _ => 0
       | _ => 1) := by
  cases cmd <;> cases hm : worker.metadata <;>
    simp [processCommand, send_result, hm]

/-- C9: for a fixed parent (fixed decoded seal difficulty and timestamp),
EthashAlgorithm::calc_difficulty is monotonically non-increasing in the
elapsed time now - timestamp: a reading with larger elapsed time never
yields a larger target. -/
theorem EthashAlgorithm.calc_difficulty_antitone (client : Client)
    (parent : Nat) (hd : Header) (bytes : List Nat) (s : WorkSeal)
    (now1 now2 t1 t2 : Nat)
    (hc : client parent = .ok (some hd)) (hs : hd.sealBytes = some bytes)
    (hdec : WorkSeal.decode bytes = .ok s)
    (h12 : now1 - s.timestamp ≤ now2 - s.timestamp)
    (h1 : EthashAlgorithm.calc_difficulty client now1 parent = .ok t1)
    (h2 : EthashAlgorithm.calc_difficulty client now2 parent = .ok t2) :
    t2 ≤ t1 := by
  rw [EthashAlgorithm.calc_difficulty_reduces client now1 parent hd bytes s
    hc hs hdec] at h1
  rw [EthashAlgorithm.calc_difficulty_reduces client now2 parent hd bytes s
    hc hs hdec] at h2
  exact EthashAlgorithm.calcDifficultyFromSeal_antitone s now1 now2 t1 t2
    h12 h1 h2

/-- C9 witness at concrete clock readings 105 and 113 over a parent seal
with timestamp 100 and difficulty 2,000,000. -/
theorem EthashAlgorithm.calc_difficulty_antitone_witness :
    (1999024 : Nat) ≤ 2000976 :=
  EthashAlgorithm.calc_difficulty_antitone exampleClient 0
    ⟨5, some exampleSeal.encode⟩ exampleSeal.encode exampleSeal
    105 113 2000976 1999024 rfl rfl (by decide) (by decide) (by decide)
    (by decide)

/-- C10: decoding the byte encoding of a well-formed WorkSeal yields the
seal back unchanged. -/
theorem WorkSeal.decode_encode (s : WorkSeal) (h : s.Wellformed) :
    WorkSeal.decode s.encode = .ok s := by
  obtain ⟨h1, h2, h3, h4, h5, h6⟩ := h
  have p256 : (2 : Nat) ^ 256 = 256 ^ 32 := by norm_num
  have p64 : (2 : Nat) ^ 64 = 256 ^ 8 := by norm_num
  rw [p256] at h1 h2 h3 h5
  rw [p64] at h4 h6
  simp [WorkSeal.decode, WorkSeal.encode, readBytes_append, readBytes_exact,
    toLEBytes_length]
  rw [fromLEBytes_toLEBytes _ _ h1, fromLEBytes_toLEBytes _ _ h2,
    fromLEBytes_toLEBytes _ _ h3, fromLEBytes_toLEBytes _ _ h4,
    fromLEBytes_toLEBytes _ _ h5, fromLEBytes_toLEBytes _ _ h6]

/-- C10 witness at a concrete well-formed seal. -/
theorem WorkSeal.decode_encode_witness :
    WorkSeal.decode (WorkSeal.encode exampleSeal) = .ok exampleSeal :=
  WorkSeal.decode_encode exampleSeal (by decide)
